import Mathlib

/-!
Verification development for the club bot persistence and service layer
(src/database/db.py, src/database/queries.py, src/services/contribution_service.py,
src/services/role_service.py, src/utils/permissions.py).

The SQLite database is embedded shallowly: each table is a list of rows in
insertion (rowid) order, and the AUTOINCREMENT id generators are explicit
counters. SQL statements are translated clause by clause: WHERE becomes
filter or find?, ORDER BY becomes a stable sort on the key, LIMIT becomes
sqlLimit with the SQLite convention that a negative limit means no limit.
A UNIQUE or PRIMARY KEY constraint violation raises sqlite3.IntegrityError
in Python; here the insert returns an Except error and leaves the state
unchanged (statement-level rollback).

One point of fidelity matters throughout: db.get_connection never executes
PRAGMA foreign_keys = ON, and SQLite leaves foreign-key enforcement OFF by
default on every connection. The ON DELETE CASCADE clause on
member_roles.role_id is therefore inert at runtime, so delete_club_role
removes only the club_roles row and leaves member_roles untouched.
-/

/-- Row of the contributions table (models.Contribution). The id is the
INTEGER PRIMARY KEY AUTOINCREMENT rowid assigned by the database. -/
structure Contribution where
  id : Nat
  user_id : Int
  username : String
  description : String
  links : Option String
  timestamp : String
  approved : Bool
  status : String
  reviewed_by : Option Int
  reviewed_at : Option String
deriving DecidableEq

/-- Row of the club_roles table (models.ClubRole). -/
structure ClubRole where
  id : Nat
  name : String
  description : Option String
deriving DecidableEq

/-- Row of the member_roles table (models.MemberRole). -/
structure MemberRole where
  user_id : Int
  role_id : Nat
  assigned_at : String
  assigned_by : Int
deriving DecidableEq

/-- The database state: the three tables the claims touch, in rowid order,
plus the AUTOINCREMENT counters for the two tables with surrogate ids. -/
structure DBState where
  contributions : List Contribution
  nextContributionId : Nat
  club_roles : List ClubRole
  nextRoleId : Nat
  member_roles : List MemberRole
deriving DecidableEq

/-- State created by init_db: all tables empty, AUTOINCREMENT counters at 1. -/
def initState : DBState := ⟨[], 1, [], 1, []⟩

/-- Error raised by SQLite on a UNIQUE or PRIMARY KEY constraint violation
(sqlite3.IntegrityError); it propagates unchanged through the service layer. -/
inductive DbError where
  | integrityError
deriving DecidableEq

/-- State of the store after an operation that may raise: on success the new
state, on a raised IntegrityError the old state (the failed INSERT changed
nothing and the exception propagates before any commit). -/
def stateAfter {α : Type} (r : Except DbError (α × DBState)) (s : DBState) : DBState :=
  match r with
  | .ok (_, s') => s'
  | .error _ => s

/-- Ordering SQLite uses for ORDER BY on a TEXT column (BINARY collation,
byte order of the UTF-8 encoding): lexicographic comparison of the decoded
character sequences, which coincides with byte order because UTF-8 preserves
code-point order. -/
def strLtb : List Char → List Char → Bool
  | [], [] => false
  | [], _ :: _ => true
  | _ :: _, [] => false
  | a :: as, b :: bs =>
    if a.toNat < b.toNat then true
    else if b.toNat < a.toNat then false
    else strLtb as bs

/-- Strict less-than on strings under the BINARY collation. -/
def strLt (a b : String) : Bool := strLtb a.data b.data

/-- Insert x into a list sorted descending by a string key, keeping x before
the first element whose key is not greater (stable). -/
def insertByDesc {α : Type} (key : α → String) (x : α) : List α → List α
  | [] => [x]
  | y :: ys => if strLt (key x) (key y) then y :: insertByDesc key x ys else x :: y :: ys

/-- ORDER BY key DESC: stable insertion sort, descending on a string key. -/
def sortByDesc {α : Type} (key : α → String) : List α → List α
  | [] => []
  | x :: xs => insertByDesc key x (sortByDesc key xs)

/-- Insert x into a list sorted ascending by a string key (stable). -/
def insertByAsc {α : Type} (key : α → String) (x : α) : List α → List α
  | [] => [x]
  | y :: ys => if strLt (key y) (key x) then y :: insertByAsc key x ys else x :: y :: ys

/-- ORDER BY key ASC: stable insertion sort, ascending on a string key. -/
def sortByAsc {α : Type} (key : α → String) : List α → List α
  | [] => []
  | x :: xs => insertByAsc key x (sortByAsc key xs)

/-- LIMIT clause semantics of SQLite: absent means all rows, a negative
limit also means all rows, otherwise at most that many rows. -/
def sqlLimit {α : Type} (limit : Option Int) (xs : List α) : List α :=
  match limit with
  | none => xs
  | some n => if n < 0 then xs else xs.take n.toNat

/-- SELECT * FROM contributions WHERE id = ? with fetchone
(queries.get_contribution_by_id). -/
def get_contribution_by_id (s : DBState) (contribution_id : Nat) : Option Contribution :=
  s.contributions.find? (fun c => c.id == contribution_id)

/-- INSERT INTO contributions (..., approved, status) VALUES (..., 0, 'pending')
followed by a re-fetch of lastrowid (queries.create_contribution). The review
columns are absent from the INSERT so they take their NULL defaults. -/
def create_contribution (s : DBState) (user_id : Int) (username : String)
    (description : String) (links : Option String) (timestamp : String) :
    Option Contribution × DBState :=
  let row : Contribution :=
    ⟨s.nextContributionId, user_id, username, description, links, timestamp,
      false, "pending", none, none⟩
  let s' : DBState :=
    { s with contributions := s.contributions ++ [row],
             nextContributionId := s.nextContributionId + 1 }
  (get_contribution_by_id s' s.nextContributionId, s')

/-- SELECT * FROM contributions WHERE user_id = ? ORDER BY timestamp DESC
with an optional LIMIT (queries.get_contributions_by_user). -/
def get_contributions_by_user (s : DBState) (user_id : Int) (limit : Option Int) :
    List Contribution :=
  sqlLimit limit (sortByDesc (fun c => c.timestamp)
    (s.contributions.filter (fun c => c.user_id == user_id)))

/-- SELECT * FROM contributions ORDER BY timestamp DESC with an optional
LIMIT (queries.get_all_contributions). -/
def get_all_contributions (s : DBState) (limit : Option Int) : List Contribution :=
  sqlLimit limit (sortByDesc (fun c => c.timestamp) s.contributions)

/-- queries.get_latest_contributions: a direct delegation to
get_all_contributions with the same limit. -/
def get_latest_contributions (s : DBState) (limit : Int) : List Contribution :=
  get_all_contributions s (some limit)

/-- SELECT * FROM contributions WHERE status = 'pending' ORDER BY timestamp
DESC (queries.list_pending_contributions). -/
def list_pending_contributions (s : DBState) : List Contribution :=
  sortByDesc (fun c => c.timestamp)
    (s.contributions.filter (fun c => c.status == "pending"))

/-- UPDATE contributions SET status = ?, approved = ?, reviewed_by = ?,
reviewed_at = ? WHERE id = ?; returns None without committing when rowcount
is 0, otherwise commits and re-fetches the row
(queries.update_contribution_status). -/
def update_contribution_status (s : DBState) (contribution_id : Nat) (status : String)
    (approved : Bool) (reviewer_id : Int) (reviewed_at : String) :
    Option Contribution × DBState :=
  let rowcount := (s.contributions.filter (fun c => c.id == contribution_id)).length
  if rowcount = 0 then (none, s)
  else
    let s' : DBState :=
      { s with contributions := s.contributions.map (fun c =>
          if c.id == contribution_id then
            { c with status := status, approved := approved,
                     reviewed_by := some reviewer_id,
                     reviewed_at := some reviewed_at }
          else c) }
    (get_contribution_by_id s' contribution_id, s')

/-- SELECT * FROM club_roles WHERE id = ? with fetchone
(queries.get_club_role_by_id). -/
def get_club_role_by_id (s : DBState) (role_id : Nat) : Option ClubRole :=
  s.club_roles.find? (fun r => r.id == role_id)

/-- SELECT * FROM club_roles WHERE name = ? with fetchone
(queries.get_club_role_by_name). -/
def get_club_role_by_name (s : DBState) (name : String) : Option ClubRole :=
  s.club_roles.find? (fun r => r.name == name)

/-- INSERT INTO club_roles (name, description) VALUES (?, ?) followed by a
re-fetch of lastrowid (queries.create_club_role). The name column is
declared UNIQUE in init_db, so SQLite raises IntegrityError when a row with
that name already exists, and the statement changes nothing. -/
def create_club_role (s : DBState) (name : String) (description : Option String) :
    Except DbError (Option ClubRole × DBState) :=
  if s.club_roles.any (fun r => r.name == name) then .error .integrityError
  else
    let row : ClubRole := ⟨s.nextRoleId, name, description⟩
    let s' : DBState :=
      { s with club_roles := s.club_roles ++ [row], nextRoleId := s.nextRoleId + 1 }
    .ok (get_club_role_by_id s' s.nextRoleId, s')

/-- SELECT * FROM club_roles ORDER BY name ASC (queries.list_all_club_roles). -/
def list_all_club_roles (s : DBState) : List ClubRole :=
  sortByAsc (fun r => r.name) s.club_roles

/-- DELETE FROM club_roles WHERE id = ?, returning rowcount > 0
(queries.delete_club_role). The member_roles table is NOT touched: the
connection from db.get_connection never runs PRAGMA foreign_keys = ON, so
SQLite does not enforce the FOREIGN KEY clause and its ON DELETE CASCADE is
inert; any member_roles rows referencing the role are left orphaned. -/
def delete_club_role (s : DBState) (role_id : Nat) : Bool × DBState :=
  let rowcount := (s.club_roles.filter (fun r => r.id == role_id)).length
  (decide (rowcount > 0),
    { s with club_roles := s.club_roles.filter (fun r => !(r.id == role_id)) })

/-- SELECT * FROM member_roles WHERE user_id = ? AND role_id = ? with
fetchone (queries.get_member_role). -/
def get_member_role (s : DBState) (user_id : Int) (role_id : Nat) : Option MemberRole :=
  s.member_roles.find? (fun mr => mr.user_id == user_id && mr.role_id == role_id)

/-- INSERT INTO member_roles (user_id, role_id, assigned_at, assigned_by)
VALUES (?, ?, ?, ?) followed by a re-fetch of the pair
(queries.assign_role_to_member). The table has PRIMARY KEY (user_id,
role_id), which SQLite enforces on every connection, so inserting an
existing pair raises IntegrityError and changes nothing. The FOREIGN KEY on
role_id is not enforced (foreign_keys pragma is off), so no existence check
on the role is modelled. -/
def assign_role_to_member (s : DBState) (user_id : Int) (role_id : Nat)
    (assigned_by : Int) (assigned_at : String) :
    Except DbError (Option MemberRole × DBState) :=
  if s.member_roles.any (fun mr => mr.user_id == user_id && mr.role_id == role_id) then
    .error .integrityError
  else
    let row : MemberRole := ⟨user_id, role_id, assigned_at, assigned_by⟩
    let s' : DBState := { s with member_roles := s.member_roles ++ [row] }
    .ok (get_member_role s' user_id role_id, s')

/-- DELETE FROM member_roles WHERE user_id = ? AND role_id = ?, returning
rowcount > 0 (queries.remove_role_from_member). -/
def remove_role_from_member (s : DBState) (user_id : Int) (role_id : Nat) :
    Bool × DBState :=
  let rowcount := (s.member_roles.filter
    (fun mr => mr.user_id == user_id && mr.role_id == role_id)).length
  let remaining := s.member_roles.filter
    (fun mr => !(mr.user_id == user_id && mr.role_id == role_id))
  (decide (rowcount > 0), { s with member_roles := remaining })

/-- SELECT cr.* FROM club_roles cr INNER JOIN member_roles mr ON
cr.id = mr.role_id WHERE mr.user_id = ? ORDER BY cr.name ASC
(queries.get_roles_for_member). An INNER JOIN yields one output row per
member_roles row whose role_id matches an existing club_roles row, so a
member_roles row orphaned by a role deletion produces nothing. -/
def get_roles_for_member (s : DBState) (user_id : Int) : List ClubRole :=
  sortByAsc (fun r => r.name)
    ((s.member_roles.filter (fun mr => mr.user_id == user_id)).filterMap
      (fun mr => s.club_roles.find? (fun r => r.id == mr.role_id)))

/-- SELECT user_id FROM member_roles WHERE role_id = ? ORDER BY assigned_at
ASC (queries.get_members_with_role). -/
def get_members_with_role (s : DBState) (role_id : Nat) : List Int :=
  (sortByAsc (fun mr => mr.assigned_at)
    (s.member_roles.filter (fun mr => mr.role_id == role_id))).map
    (fun mr => mr.user_id)

/-- ContributionService.submit_contribution: delegates to create_contribution,
injecting the current UTC time. The clock value utcnow_iso() is modelled as
the explicit argument now. -/
def submit_contribution (s : DBState) (user_id : Int) (username : String)
    (description : String) (links : Option String) (now : String) :
    Option Contribution × DBState :=
  create_contribution s user_id username description links now

/-- ContributionService.list_user_contributions: pass-through to
get_contributions_by_user with the caller-supplied limit, unvalidated. -/
def list_user_contributions (s : DBState) (user_id : Int) (limit : Option Int) :
    List Contribution :=
  get_contributions_by_user s user_id limit

/-- ContributionService.list_all_contributions: pass-through to
get_all_contributions with the caller-supplied limit, unvalidated. -/
def list_all_contributions (s : DBState) (limit : Option Int) : List Contribution :=
  get_all_contributions s limit

/-- ContributionService.list_latest_contributions: pass-through to
get_latest_contributions with the caller-supplied limit (default 10 at the
Python call site), unvalidated. -/
def list_latest_contributions (s : DBState) (limit : Int) : List Contribution :=
  get_latest_contributions s limit

/-- ContributionService.approve_contribution: update_contribution_status with
status approved, approved true and the current time as reviewed_at. -/
def approve_contribution (s : DBState) (contribution_id : Nat) (reviewer_id : Int)
    (now : String) : Option Contribution × DBState :=
  update_contribution_status s contribution_id "approved" true reviewer_id now

/-- ContributionService.reject_contribution: update_contribution_status with
status rejected, approved false and the current time as reviewed_at. -/
def reject_contribution (s : DBState) (contribution_id : Nat) (reviewer_id : Int)
    (now : String) : Option Contribution × DBState :=
  update_contribution_status s contribution_id "rejected" false reviewer_id now

/-- RoleService.create_role: pass-through to create_club_role, no duplicate
pre-check; an IntegrityError from the INSERT propagates. -/
def create_role (s : DBState) (name : String) (description : Option String) :
    Except DbError (Option ClubRole × DBState) :=
  create_club_role s name description

/-- RoleService.list_all_roles: pass-through to list_all_club_roles. -/
def list_all_roles (s : DBState) : List ClubRole :=
  list_all_club_roles s

/-- RoleService.delete_role: pass-through to delete_club_role. -/
def delete_role (s : DBState) (role_id : Nat) : Bool × DBState :=
  delete_club_role s role_id

/-- RoleService.assign_role: assign_role_to_member with the current UTC time
as assigned_at; no duplicate pre-check in the service. -/
def assign_role (s : DBState) (user_id : Int) (role_id : Nat) (assigned_by : Int)
    (now : String) : Except DbError (Option MemberRole × DBState) :=
  assign_role_to_member s user_id role_id assigned_by now

/-- RoleService.remove_role: pass-through to remove_role_from_member. -/
def remove_role (s : DBState) (user_id : Int) (role_id : Nat) : Bool × DBState :=
  remove_role_from_member s user_id role_id

/-- RoleService.get_member_roles: pass-through to get_roles_for_member. -/
def get_member_roles (s : DBState) (user_id : Int) : List ClubRole :=
  get_roles_for_member s user_id

/-- RoleService.get_role_members: pass-through to get_members_with_role. -/
def get_role_members (s : DBState) (role_id : Nat) : List Int :=
  get_members_with_role s role_id

/-- RoleService.is_member_assigned: true iff get_member_role finds a row. -/
def is_member_assigned (s : DBState) (user_id : Int) (role_id : Nat) : Bool :=
  (get_member_role s user_id role_id).isSome

/-- A platform role object as seen by the permission gate; only its name is
consulted (permissions._has_named_role reads role.name). -/
structure GuildRole where
  name : String
deriving DecidableEq

/-- The command invoker as the gate sees it: whether interaction.user is a
discord.Member (role-membership context available) and, when so, its list of
guild roles. -/
structure Caller where
  isGuildMember : Bool
  roles : List GuildRole
deriving DecidableEq

/-- Configured role names (config.HR_ROLE_NAME, config.STAFF_ROLE_NAME). -/
structure Config where
  hr_role_name : String
  staff_role_name : String
deriving DecidableEq

/-- Defaults from config.py when the environment variables are unset. -/
def defaultConfig : Config := ⟨"HR", "Staff"⟩

/-- Outcome of an app-command permission check: the predicate either returns
True or raises app_commands.CheckFailure with a message. -/
inductive CheckOutcome where
  | allowed
  | forbidden (msg : String)
deriving DecidableEq

/-- permissions._has_named_role: False for a non-member, otherwise true iff
any of the members roles has the given name. -/
def has_named_role (c : Caller) (role_name : String) : Bool :=
  if c.isGuildMember then c.roles.any (fun r => r.name == role_name) else false

/-- The predicate built by permissions.hr_only: CheckFailure for a
non-member, CheckFailure without the HR role, True otherwise. -/
def hr_only (cfg : Config) (c : Caller) : CheckOutcome :=
  if !c.isGuildMember then
    .forbidden "This command can only be used in a server."
  else if !has_named_role c cfg.hr_role_name then
    .forbidden "You do not have permission to use this HR command."
  else .allowed

/-- The predicate built by permissions.staff_only: CheckFailure for a
non-member, CheckFailure without both the Staff and the HR role (HR counts
as staff), True otherwise. -/
def staff_only (cfg : Config) (c : Caller) : CheckOutcome :=
  if !c.isGuildMember then
    .forbidden "This command can only be used in a server."
  else if !has_named_role c cfg.staff_role_name && !has_named_role c cfg.hr_role_name then
    .forbidden "You do not have permission to use this staff command."
  else .allowed

/-- States of the contributions table reachable from the freshly initialised
database by the exposed ContributionService operations that write: submit,
approve and reject (the list operations do not change state). -/
inductive ContribReachable : DBState → Prop
  | init : ContribReachable initState
  | submit (s : DBState) (u : Int) (un de : String) (l : Option String) (t : String)
      (h : ContribReachable s) :
      ContribReachable (submit_contribution s u un de l t).2
  | approve (s : DBState) (cid : Nat) (rid : Int) (t : String)
      (h : ContribReachable s) :
      ContribReachable (approve_contribution s cid rid t).2
  | reject (s : DBState) (cid : Nat) (rid : Int) (t : String)
      (h : ContribReachable s) :
      ContribReachable (reject_contribution s cid rid t).2

/-- States reachable from the freshly initialised database by the exposed
RoleService operations that write: create_role, delete_role, assign_role and
remove_role. For the two operations that can raise IntegrityError only a
successful call produces a new state; a raised error leaves the store as it
was, which is already a reachable state. -/
inductive RoleReachable : DBState → Prop
  | init : RoleReachable initState
  | create (s : DBState) (n : String) (d : Option String) (r : Option ClubRole)
      (s' : DBState) (h : RoleReachable s)
      (hc : create_role s n d = .ok (r, s')) : RoleReachable s'
  | del (s : DBState) (rid : Nat) (h : RoleReachable s) :
      RoleReachable (delete_role s rid).2
  | assign (s : DBState) (u : Int) (rid : Nat) (b : Int) (t : String)
      (mr : Option MemberRole) (s' : DBState) (h : RoleReachable s)
      (ha : assign_role s u rid b t = .ok (mr, s')) : RoleReachable s'
  | remove (s : DBState) (u : Int) (rid : Nat) (h : RoleReachable s) :
      RoleReachable (remove_role s u rid).2

/-- Fixed ISO-8601 timestamps used in concrete scenarios. -/
def ts1 : String := "2025-01-01T00:00:00+00:00"

/-- Second fixed timestamp, later than ts1. -/
def ts2 : String := "2025-01-02T00:00:00+00:00"

/-- Concrete scenario for the cascade claim: state after create_role Mentor
on the fresh database. -/
def mentorState : DBState := stateAfter (create_role initState "Mentor" none) initState

/-- Concrete scenario: state after additionally assigning user 42 to the
Mentor role (id 1), assigned by user 99. -/
def mentorAssignedState : DBState :=
  stateAfter (assign_role mentorState 42 1 99 ts1) mentorState

/-- Concrete scenario: state after then deleting the Mentor role. -/
def mentorDeletedState : DBState := (delete_role mentorAssignedState 1).2

/-- Concrete contribution rows for the limit-handling scenario: two rows by
user 7 with distinct timestamps. -/
def limitRow1 : Contribution := ⟨1, 7, "alice", "first", none, ts1, false, "pending", none, none⟩

/-- Second, later contribution row by user 7. -/
def limitRow2 : Contribution := ⟨2, 7, "alice", "second", none, ts2, false, "pending", none, none⟩

/-- Concrete store holding the two contributions of user 7. -/
def limitState : DBState := ⟨[limitRow1, limitRow2], 3, [], 1, []⟩

/-- Concrete store holding one contribution with id 1, used to exercise the
review operations. -/
def reviewState : DBState := (submit_contribution initState 42 "alice" "Fixed login bug" none ts1).2

/-- Concrete store holding one club role named Mentor with id 1, used to
exercise the duplicate-name conflict. -/
def dupRoleState : DBState := mentorState

/-- The single row of reviewState, as the database stores it. -/
def reviewRow : Contribution :=
  ⟨1, 42, "alice", "Fixed login bug", none, ts1, false, "pending", none, none⟩

/-- A find? over a list succeeds exactly when some element satisfies the
predicate. -/
theorem find?_isSome_eq_any {α : Type} (p : α → Bool) (l : List α) :
    (l.find? p).isSome = l.any p := by
  induction l with
  | nil => rfl
  | cons a t ih =>
    by_cases ha : p a = true
    · simp [List.find?_cons_of_pos t ha, ha]
    · have ha' : p a = false := by simpa using ha
      rw [List.find?_cons_of_neg t ha, List.any_cons, ha', Bool.false_or, ih]

/-- A filter over a list with no satisfying element is empty. -/
theorem filter_eq_nil_of_any_eq_false {α : Type} {p : α → Bool} {l : List α}
    (h : l.any p = false) : l.filter p = [] := by
  induction l with
  | nil => rfl
  | cons a t ih =>
    rw [List.any_cons] at h
    rcases Bool.or_eq_false_iff.mp h with ⟨h1, h2⟩
    simp [List.filter_cons, h1, ih h2]

/-- A filter over a list with a satisfying element is nonempty. -/
theorem filter_length_ne_zero_of_any {α : Type} {p : α → Bool} {l : List α}
    (h : l.any p = true) : (l.filter p).length ≠ 0 := by
  rcases List.any_eq_true.mp h with ⟨x, hx, hpx⟩
  have hmem : x ∈ l.filter p := List.mem_filter.mpr ⟨hx, hpx⟩
  intro hlen
  rw [List.length_eq_zero.mp hlen] at hmem
  exact List.not_mem_nil x hmem

/-- Appending a satisfying element to a list of non-satisfying elements makes
find? return exactly that element. -/
theorem find?_append_last {α : Type} {p : α → Bool} {c : α} (hc : p c = true)
    {l : List α} (h : ∀ x ∈ l, p x = false) : (l ++ [c]).find? p = some c := by
  induction l with
  | nil => exact List.find?_cons_of_pos [] hc
  | cons a t ih =>
    have ha : ¬ p a = true := by
      rw [h a (List.mem_cons_self a t)]; exact Bool.false_ne_true
    have ht : ∀ x ∈ t, p x = false := fun x hx => h x (List.mem_cons_of_mem a hx)
    rw [List.cons_append, List.find?_cons_of_neg _ ha]
    exact ih ht

/-- Mapping an id-preserving update over the rows matching an id and then
fetching by that id yields an updated row, provided some row matches. -/
theorem find?_map_update (cid : Nat) (upd : Contribution → Contribution)
    (hid : ∀ c, (upd c).id = c.id) :
    ∀ (l : List Contribution), l.any (fun c => c.id == cid) = true →
      ∃ c0, (l.map (fun c => if c.id == cid then upd c else c)).find?
        (fun c => c.id == cid) = some (upd c0) := by
  intro l
  induction l with
  | nil => intro h; simp at h
  | cons a t ih =>
    intro h
    by_cases ha : (a.id == cid) = true
    · refine ⟨a, ?_⟩
      have hupd : ((upd a).id == cid) = true := by
        rw [hid a]; exact ha
      rw [List.map_cons, if_pos ha]
      exact List.find?_cons_of_pos _ hupd
    · have ha' : (a.id == cid) = false := by simpa using ha
      rw [List.any_cons, ha', Bool.false_or] at h
      rcases ih h with ⟨c0, hc0⟩
      refine ⟨c0, ?_⟩
      have hskip := @List.find?_cons_of_neg Contribution (fun c => c.id == cid) a
        (List.map (fun c => if c.id == cid then upd c else c) t) ha
      rw [List.map_cons, if_neg ha, hskip]
      exact hc0

/-- C10: for every store state and every limit, list_latest_contributions is
exactly list_all_contributions with the same limit; the latest query is a
pure delegation that adds no filtering. -/
theorem C10_latest_equals_all (s : DBState) (limit : Int) :
    list_latest_contributions s limit = list_all_contributions s (some limit) := rfl

/-- C2: the HR gate allows exactly guild members whose role set contains the
configured HR role name; the staff gate allows exactly guild members holding
the HR or the Staff role name; a caller without guild-member context is
always rejected with the distinct forbidden outcome, and every rejection is
a forbidden outcome rather than a silent no-op. -/
theorem C2_permission_gate (cfg : Config) (c : Caller) :
    (hr_only cfg c = .allowed ↔
      c.isGuildMember = true ∧ cfg.hr_role_name ∈ c.roles.map GuildRole.name) ∧
    (staff_only cfg c = .allowed ↔
      c.isGuildMember = true ∧
        (cfg.hr_role_name ∈ c.roles.map GuildRole.name ∨
         cfg.staff_role_name ∈ c.roles.map GuildRole.name)) ∧
    (c.isGuildMember = false →
      hr_only cfg c = .forbidden "This command can only be used in a server." ∧
      staff_only cfg c = .forbidden "This command can only be used in a server.") ∧
    (hr_only cfg c ≠ .allowed → ∃ m, hr_only cfg c = .forbidden m) ∧
    (staff_only cfg c ≠ .allowed → ∃ m, staff_only cfg c = .forbidden m) := by
  refine ⟨?_, ?_, ?_, ?_, ?_⟩
  · unfold hr_only has_named_role
    by_cases hm : c.isGuildMember = true
    · simp only [hm, Bool.not_true, Bool.false_eq_true, if_false, if_true, true_and]
      constructor
      · intro hall
        by_cases hany : c.roles.any (fun r => r.name == cfg.hr_role_name) = true
        · rcases List.any_eq_true.mp hany with ⟨r, hr, hname⟩
          exact List.mem_map.mpr ⟨r, hr, beq_iff_eq.mp hname⟩
        · rw [if_pos (by simpa using hany)] at hall
          exact absurd hall (by simp)
      · intro hmem
        rcases List.mem_map.mp hmem with ⟨r, hr, hname⟩
        have hany : c.roles.any (fun r => r.name == cfg.hr_role_name) = true :=
          List.any_eq_true.mpr ⟨r, hr, beq_iff_eq.mpr hname⟩
        rw [if_neg (by simp [hany])]
    · have hm' : c.isGuildMember = false := by simpa using hm
      simp [hm']
  · unfold staff_only has_named_role
    by_cases hm : c.isGuildMember = true
    · simp only [hm, Bool.not_true, Bool.false_eq_true, if_false, if_true, true_and]
      constructor
      · intro hall
        by_cases hs : c.roles.any (fun r => r.name == cfg.staff_role_name) = true
        · rcases List.any_eq_true.mp hs with ⟨r, hr, hname⟩
          exact Or.inr (List.mem_map.mpr ⟨r, hr, beq_iff_eq.mp hname⟩)
        · by_cases hh : c.roles.any (fun r => r.name == cfg.hr_role_name) = true
          · rcases List.any_eq_true.mp hh with ⟨r, hr, hname⟩
            exact Or.inl (List.mem_map.mpr ⟨r, hr, beq_iff_eq.mp hname⟩)
          · rw [if_pos (by simp [Bool.eq_false_iff.mpr hs, Bool.eq_false_iff.mpr hh])] at hall
            exact absurd hall (by simp)
      · intro hmem
        rcases hmem with hmem | hmem
        · rcases List.mem_map.mp hmem with ⟨r, hr, hname⟩
          have hany : c.roles.any (fun r => r.name == cfg.hr_role_name) = true :=
            List.any_eq_true.mpr ⟨r, hr, beq_iff_eq.mpr hname⟩
          rw [if_neg (by simp [hany])]
        · rcases List.mem_map.mp hmem with ⟨r, hr, hname⟩
          have hany : c.roles.any (fun r => r.name == cfg.staff_role_name) = true :=
            List.any_eq_true.mpr ⟨r, hr, beq_iff_eq.mpr hname⟩
          rw [if_neg (by simp [hany])]
    · have hm' : c.isGuildMember = false := by simpa using hm
      simp [hm']
  · intro hm
    unfold hr_only staff_only
    simp [hm]
  · intro hne
    cases hout : hr_only cfg c with
    | allowed => exact absurd hout hne
    | forbidden m => exact ⟨m, rfl⟩
  · intro hne
    cases hout : staff_only cfg c with
    | allowed => exact absurd hout hne
    | forbidden m => exact ⟨m, rfl⟩

/-- C2 witness: a caller without guild-member context is rejected by both
gates with the server-only message, under the default configuration. -/
theorem C2_permission_gate_witness :
    hr_only defaultConfig ⟨false, []⟩ =
      .forbidden "This command can only be used in a server." ∧
    staff_only defaultConfig ⟨false, []⟩ =
      .forbidden "This command can only be used in a server." :=
  (C2_permission_gate defaultConfig ⟨false, []⟩).2.2.1 rfl

/-- C7: creating a club role whose name already exists raises the distinct
IntegrityError, creates no second row (the store is unchanged), and
list_all_roles returns the same sequence before and after the failed
attempt. -/
theorem C7_duplicate_role_conflict (s : DBState) (name : String) (d : Option String)
    (h : s.club_roles.any (fun r => r.name == name) = true) :
    create_role s name d = .error .integrityError ∧
    stateAfter (create_role s name d) s = s ∧
    list_all_roles (stateAfter (create_role s name d) s) = list_all_roles s := by
  have he : create_role s name d = .error .integrityError := by
    unfold create_role create_club_role
    rw [if_pos h]
  exact ⟨he, by rw [he]; rfl, by rw [he]; rfl⟩

/-- C7 witness: creating Mentor again on a store that already holds the
Mentor role fails with IntegrityError and leaves the role list unchanged. -/
theorem C7_duplicate_role_conflict_witness :
    create_role dupRoleState "Mentor" none = .error .integrityError ∧
    stateAfter (create_role dupRoleState "Mentor" none) dupRoleState = dupRoleState ∧
    list_all_roles (stateAfter (create_role dupRoleState "Mentor" none) dupRoleState) =
      list_all_roles dupRoleState :=
  C7_duplicate_role_conflict dupRoleState "Mentor" none (by decide)

/-- C5: approving or rejecting a contribution id that is not in the store
returns the absence signal None and leaves the stored contributions
unchanged. -/
theorem C5_review_missing_id (s : DBState) (cid : Nat) (rid : Int) (now : String)
    (h : s.contributions.any (fun c => c.id == cid) = false) :
    approve_contribution s cid rid now = (none, s) ∧
    reject_contribution s cid rid now = (none, s) := by
  have hfil : s.contributions.filter (fun c => c.id == cid) = [] :=
    filter_eq_nil_of_any_eq_false h
  constructor
  · unfold approve_contribution update_contribution_status
    simp [hfil]
  · unfold reject_contribution update_contribution_status
    simp [hfil]

/-- C5 witness: reviewing the missing id 99 on a store holding only id 1
returns None and leaves the store unchanged. -/
theorem C5_review_missing_id_witness :
    approve_contribution reviewState 99 5 ts2 = (none, reviewState) ∧
    reject_contribution reviewState 99 5 ts2 = (none, reviewState) :=
  C5_review_missing_id reviewState 99 5 ts2 (by decide)

/-- C4: submit_contribution returns a record carrying the server-assigned id
and the given fields, with status pending, approved false and both review
fields null. The hypothesis is the AUTOINCREMENT guarantee of SQLite: every
stored id is below the next id to be assigned. -/
theorem C4_submit_pending (s : DBState) (uid : Int) (un de : String)
    (links : Option String) (now : String)
    (hwf : ∀ c ∈ s.contributions, c.id < s.nextContributionId) :
    ∃ c : Contribution,
      (submit_contribution s uid un de links now).1 = some c ∧
      c.id = s.nextContributionId ∧ c.user_id = uid ∧ c.username = un ∧
      c.description = de ∧ c.links = links ∧ c.timestamp = now ∧
      c.status = "pending" ∧ c.approved = false ∧
      c.reviewed_by = none ∧ c.reviewed_at = none := by
  refine ⟨⟨s.nextContributionId, uid, un, de, links, now, false, "pending", none, none⟩,
    ?_, rfl, rfl, rfl, rfl, rfl, rfl, rfl, rfl, rfl, rfl⟩
  have hall : ∀ x ∈ s.contributions, (x.id == s.nextContributionId) = false := by
    intro x hx
    exact beq_eq_false_iff_ne.mpr (Nat.ne_of_lt (hwf x hx))
  show List.find? (fun c => c.id == s.nextContributionId)
      (s.contributions ++
        [⟨s.nextContributionId, uid, un, de, links, now, false, "pending", none, none⟩]) =
    some ⟨s.nextContributionId, uid, un, de, links, now, false, "pending", none, none⟩
  exact find?_append_last (by simp) hall

/-- C4 witness: submitting on the fresh database yields the pending record
with id 1 and null review fields. -/
theorem C4_submit_pending_witness :
    ∃ c : Contribution,
      (submit_contribution initState 42 "alice" "Fixed login bug" none ts1).1 = some c ∧
      c.id = initState.nextContributionId ∧ c.user_id = 42 ∧ c.username = "alice" ∧
      c.description = "Fixed login bug" ∧ c.links = none ∧ c.timestamp = ts1 ∧
      c.status = "pending" ∧ c.approved = false ∧
      c.reviewed_by = none ∧ c.reviewed_at = none :=
  C4_submit_pending initState 42 "alice" "Fixed login bug" none ts1 (by simp [initState])

/-- C3: for a contribution id present in the store, approve sets status
approved, approved true, reviewed_by to the reviewer and reviewed_at to the
(non-null) review timestamp, all in the single UPDATE statement, and the
returned record is exactly what a subsequent read of that id yields; reject
is symmetric with status rejected and approved false. -/
theorem C3_review_sets_fields (s : DBState) (cid : Nat) (rid : Int) (now : String)
    (h : s.contributions.any (fun c => c.id == cid) = true) :
    (∃ c : Contribution,
      (approve_contribution s cid rid now).1 = some c ∧
      get_contribution_by_id (approve_contribution s cid rid now).2 cid = some c ∧
      c.status = "approved" ∧ c.approved = true ∧
      c.reviewed_by = some rid ∧ c.reviewed_at = some now) ∧
    (∃ c : Contribution,
      (reject_contribution s cid rid now).1 = some c ∧
      get_contribution_by_id (reject_contribution s cid rid now).2 cid = some c ∧
      c.status = "rejected" ∧ c.approved = false ∧
      c.reviewed_by = some rid ∧ c.reviewed_at = some now) := by
  have hlen : ¬ (s.contributions.filter (fun c => c.id == cid)).length = 0 :=
    filter_length_ne_zero_of_any h
  constructor
  · obtain ⟨c0, hc0⟩ := find?_map_update cid
      (fun c => { c with status := "approved", approved := true,
                         reviewed_by := some rid, reviewed_at := some now })
      (fun c => rfl) s.contributions h
    refine ⟨{ c0 with status := "approved", approved := true,
                      reviewed_by := some rid, reviewed_at := some now },
      ?_, ?_, rfl, rfl, rfl, rfl⟩
    · show (update_contribution_status s cid "approved" true rid now).1 = _
      unfold update_contribution_status
      rw [if_neg hlen]
      exact hc0
    · show get_contribution_by_id (update_contribution_status s cid "approved" true rid now).2 cid = _
      unfold update_contribution_status
      rw [if_neg hlen]
      exact hc0
  · obtain ⟨c0, hc0⟩ := find?_map_update cid
      (fun c => { c with status := "rejected", approved := false,
                         reviewed_by := some rid, reviewed_at := some now })
      (fun c => rfl) s.contributions h
    refine ⟨{ c0 with status := "rejected", approved := false,
                      reviewed_by := some rid, reviewed_at := some now },
      ?_, ?_, rfl, rfl, rfl, rfl⟩
    · show (update_contribution_status s cid "rejected" false rid now).1 = _
      unfold update_contribution_status
      rw [if_neg hlen]
      exact hc0
    · show get_contribution_by_id (update_contribution_status s cid "rejected" false rid now).2 cid = _
      unfold update_contribution_status
      rw [if_neg hlen]
      exact hc0

/-- C3 witness: approving the stored contribution with id 1 yields the
record read back with all four review fields set. -/
theorem C3_review_sets_fields_witness :
    ∃ c : Contribution,
      (approve_contribution reviewState 1 999 ts2).1 = some c ∧
      get_contribution_by_id (approve_contribution reviewState 1 999 ts2).2 1 = some c ∧
      c.status = "approved" ∧ c.approved = true ∧
      c.reviewed_by = some 999 ∧ c.reviewed_at = some ts2 :=
  (C3_review_sets_fields reviewState 1 999 ts2 (by decide)).1

/-- C1: concrete evaluation of the claimed cascade. On the store built by
create_role Mentor (id 1) and assign_role of user 42, delete_role 1 returns
true and removes the role row, and get_member_roles 42 no longer contains
the role because the INNER JOIN drops the orphaned assignment; but the
MemberRole row itself is NOT removed (foreign-key enforcement is off, so ON
DELETE CASCADE never fires) and is_member_assigned 42 1 still reports true,
contradicting the claimed removal of all N MemberRole rows and the source
docstrings of delete_club_role and RoleService.delete_role. -/
theorem C1_cascade_divergence :
    (delete_role mentorAssignedState 1).1 = true ∧
    mentorDeletedState.club_roles = [] ∧
    get_member_roles mentorDeletedState 42 = [] ∧
    mentorDeletedState.member_roles = [⟨42, 1, ts1, 99⟩] ∧
    is_member_assigned mentorDeletedState 42 1 = true := by
  refine ⟨rfl, rfl, rfl, rfl, rfl⟩

/-- C9 counterexample: on a store with two contributions by user 7, every
service listing operation accepts a non-positive limit and returns normally
instead of rejecting it: limit 0 silently yields the empty list and limit -1
silently yields all rows, refuting the claim that the service layer rejects
non-positive limits with an error. -/
theorem C9_counterexample_no_rejection :
    list_user_contributions limitState 7 (some 0) = [] ∧
    list_user_contributions limitState 7 (some (-1)) = [limitRow2, limitRow1] ∧
    list_all_contributions limitState (some 0) = [] ∧
    list_latest_contributions limitState (-1) = [limitRow2, limitRow1] := by
  refine ⟨rfl, ?_, rfl, ?_⟩ <;> decide

/-- C9 amended: the service layer performs no validation of the limit and
passes it through to the SQL LIMIT clause: a limit of 0 silently yields the
empty list and a negative limit silently yields all rows (SQLite treats a
negative LIMIT as no limit); no error is signalled at the service boundary. -/
theorem C9_amended_limit_passthrough (s : DBState) (uid : Int) (l : Int) (h : l ≤ 0) :
    (list_user_contributions s uid (some l) =
      if l < 0 then sortByDesc (fun c => c.timestamp)
        (s.contributions.filter (fun c => c.user_id == uid)) else []) ∧
    (list_all_contributions s (some l) =
      if l < 0 then sortByDesc (fun c => c.timestamp) s.contributions else []) ∧
    (list_latest_contributions s l =
      if l < 0 then sortByDesc (fun c => c.timestamp) s.contributions else []) := by
  by_cases h0 : l < 0
  · simp [list_user_contributions, get_contributions_by_user,
      list_all_contributions, get_all_contributions, list_latest_contributions,
      get_latest_contributions, sqlLimit, if_pos h0]
  · have hl : l = 0 := le_antisymm h (not_lt.mp h0)
    subst hl
    simp [list_user_contributions, get_contributions_by_user,
      list_all_contributions, get_all_contributions, list_latest_contributions,
      get_latest_contributions, sqlLimit, if_neg h0]

/-- C9 amended witness: with limit -1 the listing operations on the concrete
two-row store return all rows without any error. -/
theorem C9_amended_limit_passthrough_witness :
    (list_user_contributions limitState 7 (some (-1)) =
      if (-1 : Int) < 0 then sortByDesc (fun c => c.timestamp)
        (limitState.contributions.filter (fun c => c.user_id == 7)) else []) ∧
    (list_all_contributions limitState (some (-1)) =
      if (-1 : Int) < 0 then sortByDesc (fun c => c.timestamp) limitState.contributions
      else []) ∧
    (list_latest_contributions limitState (-1) =
      if (-1 : Int) < 0 then sortByDesc (fun c => c.timestamp) limitState.contributions
      else []) :=
  C9_amended_limit_passthrough limitState 7 (-1) (by decide)

/-- C6: in every state reachable by the exposed contribution-service write
operations (submit, approve, reject), every stored contribution satisfies
approved = true exactly when its status is approved. -/
theorem C6_approved_iff_status (s : DBState) (h : ContribReachable s) :
    ∀ c ∈ s.contributions, (c.approved = true ↔ c.status = "approved") := by
  induction h with
  | init =>
    intro c hc
    simp [initState] at hc
  | submit s u un de l t hs ih =>
    intro c hc
    have hstate : (submit_contribution s u un de l t).2.contributions
        = s.contributions ++
          [⟨s.nextContributionId, u, un, de, l, t, false, "pending", none, none⟩] := rfl
    rw [hstate] at hc
    rcases List.mem_append.mp hc with h1 | h1
    · exact ih c h1
    · rw [List.mem_singleton] at h1
      subst h1
      simp
  | approve s cid rid t hs ih =>
    intro c hc
    by_cases hlen : (s.contributions.filter (fun x => x.id == cid)).length = 0
    · have hstate : (approve_contribution s cid rid t).2 = s := by
        unfold approve_contribution update_contribution_status
        rw [if_pos hlen]
      rw [hstate] at hc
      exact ih c hc
    · have hstate : (approve_contribution s cid rid t).2.contributions
          = s.contributions.map (fun x =>
              if x.id == cid then
                { x with status := "approved", approved := true,
                         reviewed_by := some rid, reviewed_at := some t }
              else x) := by
        unfold approve_contribution update_contribution_status
        rw [if_neg hlen]
      rw [hstate] at hc
      rcases List.mem_map.mp hc with ⟨a, ha, rfl⟩
      by_cases hid : (a.id == cid) = true
      · rw [if_pos hid]
        simp
      · rw [if_neg hid]
        exact ih a ha
  | reject s cid rid t hs ih =>
    intro c hc
    by_cases hlen : (s.contributions.filter (fun x => x.id == cid)).length = 0
    · have hstate : (reject_contribution s cid rid t).2 = s := by
        unfold reject_contribution update_contribution_status
        rw [if_pos hlen]
      rw [hstate] at hc
      exact ih c hc
    · have hstate : (reject_contribution s cid rid t).2.contributions
          = s.contributions.map (fun x =>
              if x.id == cid then
                { x with status := "rejected", approved := false,
                         reviewed_by := some rid, reviewed_at := some t }
              else x) := by
        unfold reject_contribution update_contribution_status
        rw [if_neg hlen]
      rw [hstate] at hc
      rcases List.mem_map.mp hc with ⟨a, ha, rfl⟩
      by_cases hid : (a.id == cid) = true
      · rw [if_pos hid]
        simp
      · rw [if_neg hid]
        exact ih a ha

/-- C6 witness: the single row stored after one submit on the fresh
database satisfies the invariant. -/
theorem C6_approved_iff_status_witness :
    reviewRow.approved = true ↔ reviewRow.status = "approved" :=
  C6_approved_iff_status reviewState
    (ContribReachable.submit initState 42 "alice" "Fixed login bug" none ts1
      ContribReachable.init)
    reviewRow (by decide)

/-- C8: in every state reachable by the exposed role-service write
operations there is at most one member_roles row per (user_id, role_id)
pair; assigning a pair that is already assigned is rejected with the
distinct IntegrityError instead of inserting a duplicate; and after a
successful assignment is_member_assigned reports true for that pair. -/
theorem C8_member_role_uniqueness (s : DBState) (h : RoleReachable s) :
    List.Pairwise
      (fun a b : MemberRole => ¬(a.user_id = b.user_id ∧ a.role_id = b.role_id))
      s.member_roles ∧
    (∀ (u : Int) (rid : Nat) (b : Int) (t : String),
      is_member_assigned s u rid = true →
      assign_role s u rid b t = .error .integrityError) ∧
    (∀ (u : Int) (rid : Nat) (b : Int) (t : String) (mr : Option MemberRole)
      (s' : DBState),
      assign_role s u rid b t = .ok (mr, s') → is_member_assigned s' u rid = true) := by
  refine ⟨?_, ?_, ?_⟩
  · induction h with
    | init => exact List.Pairwise.nil
    | create s n d r s' hs hc ih =>
      unfold create_role create_club_role at hc
      by_cases hd : s.club_roles.any (fun x => x.name == n) = true
      · rw [if_pos hd] at hc
        exact absurd hc (by simp)
      · rw [if_neg hd] at hc
        simp only [Except.ok.injEq, Prod.mk.injEq] at hc
        obtain ⟨-, hs'⟩ := hc
        subst hs'
        exact ih
    | del s rid hs ih => exact ih
    | assign s u rid b t mr s' hs ha ih =>
      unfold assign_role assign_role_to_member at ha
      by_cases hd : s.member_roles.any
          (fun x => x.user_id == u && x.role_id == rid) = true
      · rw [if_pos hd] at ha
        exact absurd ha (by simp)
      · rw [if_neg hd] at ha
        simp only [Except.ok.injEq, Prod.mk.injEq] at ha
        obtain ⟨-, hs'⟩ := ha
        subst hs'
        show List.Pairwise _ (s.member_roles ++ [(⟨u, rid, t, b⟩ : MemberRole)])
        refine List.pairwise_append.mpr ⟨ih, by simp, ?_⟩
        intro a hal y hy
        rw [List.mem_singleton] at hy
        subst hy
        rintro ⟨h1, h2⟩
        have hp : (a.user_id == u && a.role_id == rid) = true := by
          simp [h1, h2]
        exact absurd (List.any_eq_true.mpr ⟨a, hal, hp⟩) hd
    | remove s u rid hs ih =>
      show List.Pairwise _ (s.member_roles.filter
        (fun mr => !(mr.user_id == u && mr.role_id == rid)))
      exact List.Pairwise.filter _ ih
  · intro u rid b t hmem
    unfold is_member_assigned get_member_role at hmem
    rw [find?_isSome_eq_any] at hmem
    unfold assign_role assign_role_to_member
    rw [if_pos hmem]
  · intro u rid b t mr s' ha
    unfold assign_role assign_role_to_member at ha
    by_cases hd : s.member_roles.any
        (fun x => x.user_id == u && x.role_id == rid) = true
    · rw [if_pos hd] at ha
      exact absurd ha (by simp)
    · rw [if_neg hd] at ha
      simp only [Except.ok.injEq, Prod.mk.injEq] at ha
      obtain ⟨-, hs'⟩ := ha
      subst hs'
      unfold is_member_assigned get_member_role
      rw [find?_isSome_eq_any]
      show (s.member_roles ++ [(⟨u, rid, t, b⟩ : MemberRole)]).any
        (fun mr => mr.user_id == u && mr.role_id == rid) = true
      rw [List.any_append]
      simp

/-- C8 witness: the freshly initialised database is reachable and satisfies
the per-pair uniqueness invariant. -/
theorem C8_member_role_uniqueness_witness :
    List.Pairwise
      (fun a b : MemberRole => ¬(a.user_id = b.user_id ∧ a.role_id = b.role_id))
      initState.member_roles :=
  (C8_member_role_uniqueness initState RoleReachable.init).1
